import Mathlib

/-!
Verification of the price-driven device reconciliation engine
(`price_info.py`, `main.py`, `web_app.py`).

Instants are modelled as epoch seconds (`Int`), matching the Unix timestamps
the Python code converts through `datetime.fromtimestamp`; prices and delays
are rationals; device names are opaque dictionary keys, modelled as `Nat`.
-/

set_option maxHeartbeats 1000000

/-- A single electricity price sample: epoch timestamp in seconds and
price in senti/kWh, as handed to `efficient_timeframes` in `price_info.py`. -/
structure PriceEntry where
  timestamp : Int
  price : ℚ
  deriving DecidableEq

/-- One favorable timeframe as produced by `efficient_timeframes` in
`price_info.py`: the Python tuple `(start_time, end_time, avg_price,
duration_minutes)`, with instants as epoch seconds. -/
structure Timeframe where
  start_time : Int
  end_time : Int
  avg_price : ℚ
  duration_minutes : Int
  deriving DecidableEq

/-- Window emitted for one maximal run of consecutive cheap samples
(`price_info.py` lines 105-114): start is the first sample's timestamp, end is
the last sample's timestamp plus 15 minutes (900 s), the average is the
arithmetic mean of the run's prices, the duration is 15 minutes per sample.
The window is kept only when the duration meets `min_duration_minutes`. -/
def flushRun (min_duration_minutes : Int) : List PriceEntry → List Timeframe
  | [] => []
  | r :: rs =>
    let dur : Int := ((r :: rs).length : Int) * 15
    if min_duration_minutes ≤ dur then
      [{ start_time := r.timestamp
         end_time := (rs.getLastD r).timestamp + 900
         avg_price := ((r :: rs).map PriceEntry.price).sum / (((r :: rs).length : ℚ))
         duration_minutes := dur }]
    else []

/-- The scan loop of `efficient_timeframes` (`price_info.py` lines 93-116):
the first list is the run of consecutive cheap samples collected so far, the
second is the remaining input.  A run is flushed when a non-cheap sample or
the end of the series is reached. -/
def goTF (threshold : ℚ) (min_duration_minutes : Int) :
    List PriceEntry → List PriceEntry → List Timeframe
  | run, [] => flushRun min_duration_minutes run
  | run, p :: rest =>
    if p.price < threshold then
      goTF threshold min_duration_minutes (run ++ [p]) rest
    else
      flushRun min_duration_minutes run ++ goTF threshold min_duration_minutes [] rest

/-- `efficient_timeframes` from `price_info.py`: timeframes where the price is
strictly below the threshold, grouping consecutive cheap slots and filtering
by minimum duration (the callers in `main.py` use the default minimum 0). -/
def efficient_timeframes (prices : List PriceEntry) (threshold_price : ℚ)
    (min_duration_minutes : Int) : List Timeframe :=
  if prices.isEmpty then []
  else goTF threshold_price min_duration_minutes [] prices

/-- Python `statistics.median` as used by `update_prices` in `main.py`: sort
the data, take the middle element for odd length, the average of the two
middle elements for even length. -/
def median (l : List ℚ) : ℚ :=
  let s := l.insertionSort (· ≤ ·)
  let n := l.length
  if n % 2 = 1 then s.getD (n / 2) 0
  else (s.getD (n / 2 - 1) 0 + s.getD (n / 2) 0) / 2

/-- The two threshold policy kinds stored in `web_app.device_thresholds`:
the Python dict field `type`, either the string `fixed` or `multiplier`. -/
inductive ThresholdType
  | fixed
  | multiplier
  deriving DecidableEq

/-- A per-device threshold configuration record as stored in
`web_app.device_thresholds`: `{type: 'multiplier'|'fixed', value: float}`. -/
structure ThresholdConfig where
  ttype : ThresholdType
  value : ℚ
  deriving DecidableEq

/-- `web_app.DEFAULT_THRESHOLD_MULTIPLIER = 1.5`. -/
def DEFAULT_THRESHOLD_MULTIPLIER : ℚ := 3 / 2

/-- `DeviceScheduler.calculate_threshold_price` from `main.py` lines 28-39:
a device with no configuration falls back to the default multiplier; a fixed
configuration returns its value; a multiplier configuration returns
`median_price * value`. -/
def calculate_threshold_price (threshold_config : Option ThresholdConfig)
    (median_price : ℚ) : ℚ :=
  let cfg := threshold_config.getD ⟨.multiplier, DEFAULT_THRESHOLD_MULTIPLIER⟩
  match cfg.ttype with
  | .fixed => cfg.value
  | .multiplier => median_price * cfg.value

/-- A Python `datetime` as passed to `should_be_on_for_device`: the naive
wall-clock reading in epoch seconds together with an optional UTC offset in
minutes (`tzinfo`); `none` models a naive datetime. -/
structure PyDateTime where
  wall : Int
  tzoffset : Option Int
  deriving DecidableEq

/-- The UTC instant denoted by a timezone-aware Python datetime:
the wall-clock reading minus the offset.  Naive datetimes denote no
particular instant. -/
def utcInstant (d : PyDateTime) : Option Int :=
  d.tzoffset.map (fun off => d.wall - 60 * off)

/-- Device names are opaque dictionary keys in the Python code (strings);
they are modelled as natural numbers. -/
abbrev DeviceName := Nat

/-- `DeviceScheduler.should_be_on_for_device` from `main.py` lines 76-86:
strip the timezone information if present, look up the device's cached
timeframes (defaulting to the empty list), and test `start <= t < end`
against each timeframe. -/
def should_be_on_for_device (price_timeframes : List (DeviceName × List Timeframe))
    (device_name : DeviceName) (current_time : PyDateTime) : Bool :=
  let t := if current_time.tzoffset.isSome then
    { current_time with tzoffset := none } else current_time
  let timeframes := (price_timeframes.lookup device_name).getD []
  timeframes.any fun w => decide (w.start_time ≤ t.wall) && decide (t.wall < w.end_time)

/-- The desired-state computation of `DeviceScheduler.manage_devices`
(`main.py` lines 157-165): a forced state wins; otherwise the cached
timeframes decide. -/
def target_state (forced_state : Option Bool)
    (price_timeframes : List (DeviceName × List Timeframe))
    (device_name : DeviceName) (current_time : PyDateTime) : Bool :=
  match forced_state with
  | some b => b
  | none => should_be_on_for_device price_timeframes device_name current_time

/-- The mutable scheduler attributes touched by `update_prices`
(`main.py` lines 16-21): the cached price series `last_prices` and the
per-device timeframe map `price_timeframes`. -/
structure SchedulerState where
  last_prices : Option (List PriceEntry)
  price_timeframes : List (DeviceName × List Timeframe)
  deriving DecidableEq

/-- Net effect of `DeviceScheduler.update_prices` (`main.py` lines 41-74) on
the scheduler state, given the fetched series (empty on fetch failure, since
`fetch_electricity_prices` returns `[]` on a request exception): when the
series is falsy nothing is written; otherwise the series is cached and the
timeframe map is rebuilt for every device from its resolved threshold. -/
def update_prices (fetched : List PriceEntry) (devices : List DeviceName)
    (device_thresholds : DeviceName → Option ThresholdConfig)
    (st : SchedulerState) : SchedulerState :=
  if fetched.isEmpty then st
  else
    let median_price := median (fetched.map PriceEntry.price)
    { last_prices := some fetched
      price_timeframes := devices.map fun name =>
        (name, efficient_timeframes fetched
          (calculate_threshold_price (device_thresholds name) median_price) 0) }

/-- The successive values of `self.price_timeframes` that a concurrent thread
(the waitress web server calling `should_be_on_for_device` or
`get_timeframes_for_threshold` from `web_app.get_status`) can observe while
`update_prices` runs on a non-empty fetched series: first the old map, then
the freshly rebound empty dict (`main.py` line 56), then the map after each
per-device insertion (`main.py` line 62). -/
def update_prices_visible_maps (fetched : List PriceEntry)
    (devices : List DeviceName)
    (device_thresholds : DeviceName → Option ThresholdConfig)
    (old : List (DeviceName × List Timeframe)) :
    List (List (DeviceName × List Timeframe)) :=
  if fetched.isEmpty then [old]
  else
    let median_price := median (fetched.map PriceEntry.price)
    old :: List.scanl (fun acc name =>
      acc ++ [(name, efficient_timeframes fetched
        (calculate_threshold_price (device_thresholds name) median_price) 0)])
      [] devices

/-- `DeviceScheduler.max_retries = 3` (`main.py` line 18). -/
def max_retries : Nat := 3

/-- `DeviceScheduler.retry_delay = 2.0` seconds (`main.py` line 19). -/
def retry_delay : ℚ := 2

/-- The retry loop shared by `get_device_state` and `set_device_state`
(`main.py` lines 105-120 and 126-144).  `attempt_results k` is the outcome of
the k-th attempt of the underlying device operation (`none` = exception);
the second component records the backoff waits performed, in order: after a
failed attempt `k` that is not the last one the code sleeps
`retry_delay * 2 ^ k` and retries. -/
def retryFrom (attempt_results : Nat → Option Bool) (delay : ℚ) :
    Nat → Nat → Option Bool × List ℚ
  | _, 0 => (none, [])
  | attempt, n + 1 =>
    match attempt_results attempt with
    | some v => (some v, [])
    | none =>
      if n = 0 then (none, [])
      else
        let r := retryFrom attempt_results delay (attempt + 1) n
        (r.1, delay * 2 ^ attempt :: r.2)

/-- One full retried device operation with the scheduler's constants
(`max_retries = 3`, `retry_delay = 2.0`): the overall outcome and the list of
backoff waits the caller observes. -/
def run_with_retries (attempt_results : Nat → Option Bool) : Option Bool × List ℚ :=
  retryFrom attempt_results retry_delay 0 max_retries

/-- `DeviceScheduler.manage_devices` (`main.py` lines 146-175), as the list of
set-state commands issued during one tick.  `devices_snapshot` is the snapshot
of `web_app.devices` taken at line 150, `present` models the line 154
membership re-check, `read_state` gives the outcome of the retried
`get_device_state` call for each device (`none` = all retries exhausted).
A device whose read fails is skipped; otherwise a single command is issued
exactly when desired and observed state differ.  `device_tick_commands` is
the loop body for one device (`main.py` lines 152-175); `manage_devices`
folds it over the snapshot. -/
def device_tick_commands (present : DeviceName → Bool)
    (forced_states : DeviceName → Option Bool)
    (price_timeframes : List (DeviceName × List Timeframe))
    (current_time : PyDateTime)
    (read_state : DeviceName → Option Bool)
    (d : DeviceName × Nat) : List (DeviceName × Bool) :=
  if present d.1 then
    match read_state d.1 with
    | none => []
    | some is_on =>
      if target_state (forced_states d.1) price_timeframes d.1 current_time
          && !is_on then [(d.1, true)]
      else if !(target_state (forced_states d.1) price_timeframes d.1 current_time)
          && is_on then [(d.1, false)]
      else []
  else []

/-- One reconciliation tick over the whole device snapshot: the concatenated
set-state commands of every device's loop body, in iteration order. -/
def manage_devices (devices_snapshot : List (DeviceName × Nat))
    (present : DeviceName → Bool)
    (forced_states : DeviceName → Option Bool)
    (price_timeframes : List (DeviceName × List Timeframe))
    (current_time : PyDateTime)
    (read_state : DeviceName → Option Bool) : List (DeviceName × Bool) :=
  devices_snapshot.flatMap
    (device_tick_commands present forced_states price_timeframes current_time read_state)

/-- Well-formed sample spacing: timestamps sorted with consecutive samples at
least one sampling interval (900 s) apart — the spec's series shape, with
gaps allowed. -/
def spacedSeries (l : List PriceEntry) : Prop :=
  l.Chain' fun a b => a.timestamp + 900 ≤ b.timestamp

/-- Gap-free spacing: consecutive timestamps exactly 900 s apart. -/
def uniformSeries (l : List PriceEntry) : Prop :=
  l.Chain' fun a b => b.timestamp = a.timestamp + 900


lemma mem_flushRun {md : Int} {run : List PriceEntry} {w : Timeframe}
    (h : w ∈ flushRun md run) :
    ∃ r rs, run = r :: rs ∧ w.start_time = r.timestamp ∧
      w.end_time = (rs.getLastD r).timestamp + 900 ∧
      w.duration_minutes = ((rs.length : Int) + 1) * 15 := by
  cases run with
  | nil => simp [flushRun] at h
  | cons r rs =>
    refine ⟨r, rs, rfl, ?_⟩
    simp only [flushRun] at h
    split at h
    · simp only [List.mem_singleton] at h
      subst h
      refine ⟨rfl, rfl, ?_⟩
      simp only [List.length_cons]
      push_cast
      ring
    · simp at h

lemma flushRun_eq_nil_or_singleton (md : Int) (run : List PriceEntry) :
    flushRun md run = [] ∨ ∃ w, flushRun md run = [w] := by
  cases run with
  | nil => exact Or.inl rfl
  | cons r rs =>
    simp only [flushRun]
    split
    · exact Or.inr ⟨_, rfl⟩
    · exact Or.inl rfl

lemma getLastD_cons_eq (b : PriceEntry) (bs : List PriceEntry) (r : PriceEntry) :
    (b :: bs).getLastD r = bs.getLastD b := by
  cases bs with
  | nil => rfl
  | cons c cs =>
    simp only [List.getLastD_eq_getLast?, List.getLast?_cons_cons]
    rcases e : (c :: cs).getLast? with _ | x
    · simp at e
    · rfl

lemma head_le_getLastD (r : PriceEntry) (rs : List PriceEntry)
    (h : (r :: rs).Chain' fun a b => a.timestamp + 900 ≤ b.timestamp) :
    r.timestamp ≤ (rs.getLastD r).timestamp := by
  induction rs generalizing r with
  | nil => simp
  | cons b bs ih =>
    rw [List.chain'_cons] at h
    have h2 := ih b h.2
    rw [getLastD_cons_eq]
    omega

lemma getLastD_uniform (r : PriceEntry) (rs : List PriceEntry)
    (h : (r :: rs).Chain' fun a b => b.timestamp = a.timestamp + 900) :
    (rs.getLastD r).timestamp = r.timestamp + 900 * (rs.length : Int) := by
  induction rs generalizing r with
  | nil => simp
  | cons b bs ih =>
    rw [List.chain'_cons] at h
    have h2 := ih b h.2
    rw [getLastD_cons_eq, h2, h.1]
    simp only [List.length_cons]
    push_cast
    ring

lemma spaced_head_le (p : PriceEntry) (rest : List PriceEntry)
    (h : (p :: rest).Chain' fun a b => a.timestamp + 900 ≤ b.timestamp) :
    ∀ x ∈ rest, p.timestamp + 900 ≤ x.timestamp := by
  induction rest generalizing p with
  | nil => simp
  | cons b bs ih =>
    rw [List.chain'_cons] at h
    intro x hx
    rcases List.mem_cons.mp hx with rfl | hx
    · exact h.1
    · have := ih b h.2 x hx
      omega

lemma getLast?_cons_eq (r : PriceEntry) (rs : List PriceEntry) :
    (r :: rs).getLast? = some (rs.getLastD r) := by
  simp [List.getLast?_cons, List.getLastD_eq_getLast?]

lemma goTF_start_mem (thr : ℚ) (md : Int) :
    ∀ (rest run : List PriceEntry) (w : Timeframe), w ∈ goTF thr md run rest →
      ∃ x ∈ run ++ rest, w.start_time = x.timestamp := by
  intro rest
  induction rest with
  | nil =>
    intro run w hw
    simp only [goTF] at hw
    obtain ⟨r, rs, hrun, hs, _, _⟩ := mem_flushRun hw
    exact ⟨r, by simp [hrun], hs⟩
  | cons p rest ih =>
    intro run w hw
    simp only [goTF] at hw
    split at hw
    · obtain ⟨x, hx, hsx⟩ := ih (run ++ [p]) w hw
      refine ⟨x, ?_, hsx⟩
      simp only [List.mem_append, List.mem_cons, List.mem_singleton] at hx ⊢
      tauto
    · rcases List.mem_append.mp hw with hw | hw
      · obtain ⟨r, rs, hrun, hs, _, _⟩ := mem_flushRun hw
        exact ⟨r, by simp [hrun], hs⟩
      · obtain ⟨x, hx, hsx⟩ := ih [] w hw
        rw [List.nil_append] at hx
        exact ⟨x, by simp [hx], hsx⟩

lemma goTF_sep_chain (thr : ℚ) (md : Int) :
    ∀ (rest run : List PriceEntry),
      (run ++ rest).Chain' (fun a b => a.timestamp + 900 ≤ b.timestamp) →
      (∀ w ∈ goTF thr md run rest, w.start_time < w.end_time) ∧
      (goTF thr md run rest).Chain' fun a b => a.end_time ≤ b.start_time := by
  intro rest
  induction rest with
  | nil =>
    intro run h
    rw [List.append_nil] at h
    constructor
    · intro w hw
      simp only [goTF] at hw
      obtain ⟨r, rs, hrun, hs, he, _⟩ := mem_flushRun hw
      subst hrun
      have := head_le_getLastD r rs h
      rw [hs, he]; omega
    · simp only [goTF]
      rcases flushRun_eq_nil_or_singleton md run with h0 | ⟨w, h0⟩ <;> rw [h0] <;> simp
  | cons p rest ih =>
    intro run h
    simp only [goTF]
    split
    · have h' : ((run ++ [p]) ++ rest).Chain'
          (fun a b => a.timestamp + 900 ≤ b.timestamp) := by
        rwa [List.append_assoc, List.singleton_append]
      exact ih (run ++ [p]) h'
    · obtain ⟨hrun, hprest, hlink⟩ := List.chain'_append.mp h
      have hrest : rest.Chain' (fun a b => a.timestamp + 900 ≤ b.timestamp) :=
        hprest.tail
      have hih := ih [] (by simpa using hrest)
      constructor
      · intro w hw
        rcases List.mem_append.mp hw with hw | hw
        · obtain ⟨r, rs, hrun', hs, he, _⟩ := mem_flushRun hw
          subst hrun'
          have := head_le_getLastD r rs hrun
          rw [hs, he]; omega
        · exact hih.1 w hw
      · rw [List.chain'_append]
        refine ⟨?_, hih.2, ?_⟩
        · rcases flushRun_eq_nil_or_singleton md run with h0 | ⟨w, h0⟩ <;>
            rw [h0] <;> simp
        · intro x hx y hy
          have hxmem : x ∈ flushRun md run := List.mem_of_mem_getLast? hx
          obtain ⟨r, rs, hrun', hsx, hex, _⟩ := mem_flushRun hxmem
          have hymem : y ∈ goTF thr md [] rest := List.mem_of_mem_head? hy
          obtain ⟨z, hz, hzy⟩ := goTF_start_mem thr md rest [] y hymem
          rw [List.nil_append] at hz
          have h1 : (rs.getLastD r).timestamp + 900 ≤ p.timestamp := by
            apply hlink
            · rw [hrun', getLast?_cons_eq]; rfl
            · simp
          have h2 : p.timestamp + 900 ≤ z.timestamp := spaced_head_le p rest hprest z hz
          rw [hex, hzy]
          omega

lemma goTF_uniform_duration (thr : ℚ) (md : Int) :
    ∀ (rest run : List PriceEntry),
      (run ++ rest).Chain' (fun a b => b.timestamp = a.timestamp + 900) →
      ∀ w ∈ goTF thr md run rest,
        w.end_time - w.start_time = 60 * w.duration_minutes := by
  intro rest
  induction rest with
  | nil =>
    intro run h w hw
    rw [List.append_nil] at h
    simp only [goTF] at hw
    obtain ⟨r, rs, hrun, hs, he, hd⟩ := mem_flushRun hw
    subst hrun
    have := getLastD_uniform r rs h
    rw [hs, he, hd, this]
    ring
  | cons p rest ih =>
    intro run h w hw
    simp only [goTF] at hw
    split at hw
    · have h' : ((run ++ [p]) ++ rest).Chain'
          (fun a b => b.timestamp = a.timestamp + 900) := by
        rwa [List.append_assoc, List.singleton_append]
      exact ih (run ++ [p]) h' w hw
    · obtain ⟨hrun, hprest, _⟩ := List.chain'_append.mp h
      rcases List.mem_append.mp hw with hw | hw
      · obtain ⟨r, rs, hrun', hs, he, hd⟩ := mem_flushRun hw
        subst hrun'
        have := getLastD_uniform r rs hrun
        rw [hs, he, hd, this]
        ring
      · exact ih [] (by simpa using hprest.tail) w hw

lemma sep_head_all :
    ∀ (l : List Timeframe) (a : Timeframe),
      (∀ w ∈ l, w.start_time < w.end_time) →
      (a :: l).Chain' (fun x y => x.end_time ≤ y.start_time) →
      ∀ b ∈ l, a.end_time ≤ b.start_time := by
  intro l
  induction l with
  | nil => simp
  | cons c l ih =>
    intro a hg hc b hb
    rw [List.chain'_cons] at hc
    rcases List.mem_cons.mp hb with rfl | hb
    · exact hc.1
    · have hcl := ih c (fun w hw => hg w (by simp [hw])) hc.2 b hb
      have := hg c (by simp)
      omega

lemma chain'_sep_pairwise :
    ∀ (l : List Timeframe),
      (∀ w ∈ l, w.start_time < w.end_time) →
      l.Chain' (fun x y => x.end_time ≤ y.start_time) →
      l.Pairwise fun x y => x.end_time ≤ y.start_time ∧ x.start_time < y.start_time := by
  intro l
  induction l with
  | nil => simp
  | cons a l ih =>
    intro hg hc
    rw [List.pairwise_cons]
    have htail := (List.chain'_cons'.mp hc).2
    refine ⟨?_, ih (fun w hw => hg w (by simp [hw])) htail⟩
    intro b hb
    have h1 := sep_head_all l a (fun w hw => hg w (by simp [hw])) hc b hb
    have h2 := hg a (by simp)
    exact ⟨h1, by omega⟩

/-- C1: per device and tick, a non-Auto override forces the desired state to
its value regardless of windows; in Auto mode the desired state is true
exactly when the current instant lies in the half-open interval
`[start, end)` of some cached window (an instant at a window's end is not
favorable, by the strict upper comparison), and a device whose lookup yields
no cached windows gets desired state false. -/
theorem c1_desired_state (m : List (DeviceName × List Timeframe))
    (name : DeviceName) (t : Int) (b : Bool) :
    (target_state (some b) m name ⟨t, none⟩ = b) ∧
    (target_state none m name ⟨t, none⟩ = true ↔
      ∃ w ∈ (m.lookup name).getD [], w.start_time ≤ t ∧ t < w.end_time) ∧
    ((m.lookup name).getD [] = [] → target_state none m name ⟨t, none⟩ = false) := by
  refine ⟨rfl, ?_, ?_⟩
  · simp [target_state, should_be_on_for_device, List.any_eq_true]
  · intro h
    simp [target_state, should_be_on_for_device, h]

/-- Witness for C1: a device absent from the timeframe map has desired state
false in Auto mode. -/
theorem c1_desired_state_witness :
    (([] : List (DeviceName × List Timeframe)).lookup 0).getD [] = [] ∧
    target_state none [] 0 ⟨0, none⟩ = false :=
  ⟨rfl, (c1_desired_state [] 0 0 true).2.2 rfl⟩

/-- C2 (amended): for a series sorted with consecutive samples at least one
sampling interval (15 min) apart, every returned window satisfies
`end > start` and the windows are pairwise non-overlapping and sorted
ascending by start; `durationMinutes == (end - start) in minutes`
additionally holds whenever the series is gap-free (uniform 15-minute
spacing) — a gap inside a run of cheap samples makes `end - start` exceed
the recorded duration. -/
theorem c2_segmentation_invariants (prices : List PriceEntry) (thr : ℚ)
    (h : spacedSeries prices) :
    (∀ w ∈ efficient_timeframes prices thr 0, w.start_time < w.end_time) ∧
    (efficient_timeframes prices thr 0).Pairwise
      (fun a b => a.end_time ≤ b.start_time ∧ a.start_time < b.start_time) ∧
    (uniformSeries prices → ∀ w ∈ efficient_timeframes prices thr 0,
      w.end_time - w.start_time = 60 * w.duration_minutes) := by
  unfold efficient_timeframes
  split
  · simp
  · have hg := goTF_sep_chain thr 0 prices [] (by simpa [spacedSeries] using h)
    refine ⟨hg.1, chain'_sep_pairwise _ hg.1 hg.2, ?_⟩
    intro hu w hw
    exact goTF_uniform_duration thr 0 prices []
      (by simpa [uniformSeries] using hu) w hw

/-- C2 counterexample: two cheap samples at 00:00 and 01:00 (a 60-minute gap,
allowed by the claim's hypothesis) produce one window with
`end - start = 75` minutes but `durationMinutes = 30`: the scan groups cheap
samples that are consecutive in the list regardless of time gaps, so a gap
does not end the window early and the duration invariant fails. -/
theorem c2_gap_duration_counterexample :
    spacedSeries [⟨0, 5⟩, ⟨3600, 5⟩] ∧
    ∃ w ∈ efficient_timeframes [⟨0, 5⟩, ⟨3600, 5⟩] 8 0,
      w.end_time - w.start_time ≠ 60 * w.duration_minutes := by
  refine ⟨by norm_num [spacedSeries, List.chain'_cons], ⟨0, 4500, 5, 30⟩, ?_, by norm_num⟩
  norm_num [efficient_timeframes, goTF, flushRun]

/-- Witness for C2 at a concrete spaced series. -/
theorem c2_segmentation_invariants_witness :
    spacedSeries [⟨0, 5⟩, ⟨900, 12⟩] ∧
    ((∀ w ∈ efficient_timeframes [⟨0, 5⟩, ⟨900, 12⟩] 8 0,
        w.start_time < w.end_time) ∧
      (efficient_timeframes [⟨0, 5⟩, ⟨900, 12⟩] 8 0).Pairwise
        (fun a b => a.end_time ≤ b.start_time ∧ a.start_time < b.start_time) ∧
      (uniformSeries [⟨0, 5⟩, ⟨900, 12⟩] →
        ∀ w ∈ efficient_timeframes [⟨0, 5⟩, ⟨900, 12⟩] 8 0,
          w.end_time - w.start_time = 60 * w.duration_minutes)) :=
  ⟨by norm_num [spacedSeries, List.chain'_cons],
    c2_segmentation_invariants [⟨0, 5⟩, ⟨900, 12⟩] 8
      (by norm_num [spacedSeries, List.chain'_cons])⟩

/-- C3: the spec's worked example — four samples at 15-minute spacing from
00:00 with prices [10, 5, 5, 12] and threshold 8 produce exactly one window
from 00:15 to 00:45 with average price 5 and duration 30 minutes. -/
theorem c3_worked_example :
    efficient_timeframes
      [⟨0, 10⟩, ⟨900, 5⟩, ⟨1800, 5⟩, ⟨2700, 12⟩] 8 0 =
      [⟨900, 2700, 5, 30⟩] := by
  norm_num [efficient_timeframes, goTF, flushRun]

lemma goTF_not_cheap_excluded (thr : ℚ) (md : Int) :
    ∀ (rest run : List PriceEntry),
      (run ++ rest).Chain' (fun a b => a.timestamp + 900 ≤ b.timestamp) →
      (∀ x ∈ run, x.price < thr) →
      ∀ w ∈ goTF thr md run rest, ∀ s ∈ run ++ rest, ¬ s.price < thr →
        ¬ (w.start_time ≤ s.timestamp ∧ s.timestamp < w.end_time) := by
  intro rest
  induction rest with
  | nil =>
    intro run h hcheap w hw s hs hns
    rw [List.append_nil] at hs
    exact absurd (hcheap s hs) hns
  | cons p rest ih =>
    intro run h hcheap w hw s hs hns
    simp only [goTF] at hw
    split at hw
    · have h' : ((run ++ [p]) ++ rest).Chain'
          (fun a b => a.timestamp + 900 ≤ b.timestamp) := by
        rwa [List.append_assoc, List.singleton_append]
      have hcheap' : ∀ x ∈ run ++ [p], x.price < thr := by
        intro x hx
        rcases List.mem_append.mp hx with hx | hx
        · exact hcheap x hx
        · rw [List.mem_singleton] at hx
          subst hx
          assumption
      have hs' : s ∈ (run ++ [p]) ++ rest := by
        rw [List.append_assoc, List.singleton_append]
        exact hs
      exact ih (run ++ [p]) h' hcheap' w hw s hs' hns
    · obtain ⟨hrun, hprest, hlink⟩ := List.chain'_append.mp h
      have hps : s ∈ p :: rest := by
        rcases List.mem_append.mp hs with hs | hs
        · exact absurd (hcheap s hs) hns
        · exact hs
      rcases List.mem_append.mp hw with hw | hw
      · obtain ⟨r, rs, hrun', hsw, hew, _⟩ := mem_flushRun hw
        have hendp : (rs.getLastD r).timestamp + 900 ≤ p.timestamp := by
          apply hlink
          · rw [hrun', getLast?_cons_eq]; rfl
          · simp
        have hsts : p.timestamp ≤ s.timestamp := by
          rcases List.mem_cons.mp hps with rfl | hps'
          · omega
          · have := spaced_head_le p rest hprest s hps'
            omega
        rw [hew]
        intro hcon
        omega
      · rcases List.mem_cons.mp hps with heq | hps'
        · subst heq
          obtain ⟨z, hz, hzw⟩ := goTF_start_mem thr md rest [] w hw
          rw [List.nil_append] at hz
          have := spaced_head_le s rest hprest z hz
          rw [hzw]
          intro hcon
          omega
        · exact ih [] (by simpa using hprest.tail) (by simp) w hw s
            (by simpa using hps') hns

lemma goTF_singleton_run (thr : ℚ) :
    ∀ (l1 run : List PriceEntry) (s : PriceEntry) (l2 : List PriceEntry),
      (l1 = [] → run = []) →
      (∀ x ∈ l1.getLast?, ¬ x.price < thr) →
      (∀ x ∈ l2.head?, ¬ x.price < thr) →
      s.price < thr →
      (⟨s.timestamp, s.timestamp + 900, s.price, 15⟩ : Timeframe) ∈
        goTF thr 0 run (l1 ++ s :: l2) := by
  intro l1
  induction l1 with
  | nil =>
    intro run s l2 hrun _ hl2 hs
    rw [hrun rfl, List.nil_append]
    simp only [goTF, if_pos hs]
    have hflush : flushRun 0 [s] =
        [⟨s.timestamp, s.timestamp + 900, s.price, 15⟩] := by
      simp [flushRun]
    cases l2 with
    | nil =>
      simp only [goTF, List.nil_append, hflush]
      simp
    | cons q l2' =>
      have hq : ¬ q.price < thr := hl2 q (by simp)
      simp only [goTF, if_neg hq]
      apply List.mem_append_left
      rw [List.nil_append, hflush]
      simp
  | cons a l1' ih =>
    intro run s l2 _ hl1 hl2 hs
    rw [List.cons_append]
    simp only [goTF]
    by_cases ha : a.price < thr
    · rw [if_pos ha]
      have hne : l1' ≠ [] := by
        intro h0
        subst h0
        exact hl1 a (by simp [List.getLast?_singleton]) ha
      refine ih (run ++ [a]) s l2 (fun h0 => absurd h0 hne) ?_ hl2 hs
      intro x hx
      apply hl1
      cases l1' with
      | nil => simp at hx
      | cons b t => rw [List.getLast?_cons_cons]; exact hx
    · rw [if_neg ha]
      apply List.mem_append_right
      refine ih [] s l2 (fun _ => rfl) ?_ hl2 hs
      intro x hx
      cases l1' with
      | nil => simp at hx
      | cons b t =>
        apply hl1
        rw [List.getLast?_cons_cons]
        exact hx

/-- C4: over a well-formed series (sorted, consecutive samples at least one
interval apart), a sample priced exactly at the threshold is classified
not-cheap (strict comparison) and its timestamp lies inside no returned
window; and a maximal run of exactly one cheap sample yields a window of
exactly one 15-minute sampling interval. -/
theorem c4_threshold_boundary (prices : List PriceEntry) (thr : ℚ)
    (h : spacedSeries prices) :
    (∀ s ∈ prices, s.price = thr →
      ∀ w ∈ efficient_timeframes prices thr 0,
        ¬ (w.start_time ≤ s.timestamp ∧ s.timestamp < w.end_time)) ∧
    (∀ l1 (s : PriceEntry) l2, prices = l1 ++ s :: l2 → s.price < thr →
      (∀ x ∈ l1.getLast?, ¬ x.price < thr) →
      (∀ x ∈ l2.head?, ¬ x.price < thr) →
      (⟨s.timestamp, s.timestamp + 900, s.price, 15⟩ : Timeframe) ∈
        efficient_timeframes prices thr 0) := by
  constructor
  · intro s hs hsp w hw
    unfold efficient_timeframes at hw
    split at hw
    · simp at hw
    · refine goTF_not_cheap_excluded thr 0 prices []
        (by simpa [spacedSeries] using h) (by simp) w hw s (by simpa using hs) ?_
      rw [hsp]
      exact lt_irrefl thr
  · intro l1 s l2 hdec hcheap hl1 hl2
    subst hdec
    unfold efficient_timeframes
    rw [if_neg (by simp)]
    exact goTF_singleton_run thr l1 [] s l2 (fun _ => rfl) hl1 hl2 hcheap

/-- Witness for C4: series [8, 5, 8] at 15-minute spacing with threshold 8. -/
theorem c4_threshold_boundary_witness :
    spacedSeries [⟨0, 8⟩, ⟨900, 5⟩, ⟨1800, 8⟩] ∧
    ((∀ s ∈ [(⟨0, 8⟩ : PriceEntry), ⟨900, 5⟩, ⟨1800, 8⟩], s.price = 8 →
      ∀ w ∈ efficient_timeframes [⟨0, 8⟩, ⟨900, 5⟩, ⟨1800, 8⟩] 8 0,
        ¬ (w.start_time ≤ s.timestamp ∧ s.timestamp < w.end_time)) ∧
    (∀ l1 (s : PriceEntry) l2,
      [(⟨0, 8⟩ : PriceEntry), ⟨900, 5⟩, ⟨1800, 8⟩] = l1 ++ s :: l2 →
      s.price < 8 →
      (∀ x ∈ l1.getLast?, ¬ x.price < 8) →
      (∀ x ∈ l2.head?, ¬ x.price < 8) →
      (⟨s.timestamp, s.timestamp + 900, s.price, 15⟩ : Timeframe) ∈
        efficient_timeframes [⟨0, 8⟩, ⟨900, 5⟩, ⟨1800, 8⟩] 8 0)) :=
  ⟨by norm_num [spacedSeries, List.chain'_cons],
    c4_threshold_boundary [⟨0, 8⟩, ⟨900, 5⟩, ⟨1800, 8⟩] 8
      (by norm_num [spacedSeries, List.chain'_cons])⟩

/-- C5: a `Fixed(v)` policy resolves to `v` whatever the series' median is;
a `Multiplier(f)` policy resolves to `f` times the median of the series
(Python `statistics.median`, averaging the two middle values for even
length); in particular `Multiplier(1.5)` against a series of median 10
resolves to 15, both for an odd-length and an even-length series. -/
theorem c5_threshold_resolution (v f : ℚ) (prices : List ℚ) (h : prices ≠ []) :
    (∀ m : ℚ, calculate_threshold_price (some ⟨.fixed, v⟩) m = v) ∧
    (calculate_threshold_price (some ⟨.multiplier, f⟩) (median prices) =
      f * median prices) ∧
    (median [8, 10, 12] = 10 ∧
      calculate_threshold_price (some ⟨.multiplier, 3 / 2⟩) (median [8, 10, 12]) = 15) ∧
    (median [5, 9, 11, 15] = 10 ∧
      calculate_threshold_price (some ⟨.multiplier, 3 / 2⟩)
        (median [5, 9, 11, 15]) = 15) := by
  have hodd : median [8, 10, 12] = 10 := by
    norm_num [median, List.insertionSort, List.orderedInsert]
  have heven : median [5, 9, 11, 15] = 10 := by
    norm_num [median, List.insertionSort, List.orderedInsert]
  refine ⟨fun m => rfl, mul_comm _ _, ⟨hodd, ?_⟩, ⟨heven, ?_⟩⟩
  · rw [show calculate_threshold_price (some ⟨.multiplier, 3 / 2⟩) (median [8, 10, 12]) =
      median [8, 10, 12] * (3 / 2) from rfl, hodd]
    norm_num
  · rw [show calculate_threshold_price (some ⟨.multiplier, 3 / 2⟩) (median [5, 9, 11, 15]) =
      median [5, 9, 11, 15] * (3 / 2) from rfl, heven]
    norm_num

/-- Witness for C5 at the one-element series. -/
theorem c5_threshold_resolution_witness :
    ([10] : List ℚ) ≠ [] ∧
    calculate_threshold_price (some ⟨.multiplier, 3 / 2⟩) (median [(10 : ℚ)]) =
      (3 / 2) * median [(10 : ℚ)] :=
  ⟨by simp, (c5_threshold_resolution 7 (3 / 2) [10] (by simp)).2.1⟩

/-- C6: when the price fetch fails or yields an empty series (Python
`if prices:` is false), `update_prices` leaves the cached series and every
device's cached window set untouched and substitutes no defaults: the
scheduler state is unchanged. -/
theorem c6_failed_fetch_keeps_state (fetched : List PriceEntry)
    (h : fetched.isEmpty = true) (devices : List DeviceName)
    (device_thresholds : DeviceName → Option ThresholdConfig)
    (st : SchedulerState) :
    update_prices fetched devices device_thresholds st = st := by
  unfold update_prices
  rw [if_pos h]

/-- Witness for C6: an empty fetch against a populated state. -/
theorem c6_failed_fetch_keeps_state_witness :
    ([] : List PriceEntry).isEmpty = true ∧
    update_prices [] [0] (fun _ => none)
      ⟨some [⟨0, 5⟩], [(0, [⟨0, 900, 5, 15⟩])]⟩ =
      ⟨some [⟨0, 5⟩], [(0, [⟨0, 900, 5, 15⟩])]⟩ :=
  ⟨rfl, c6_failed_fetch_keeps_state [] rfl [0] (fun _ => none)
    ⟨some [⟨0, 5⟩], [(0, [⟨0, 900, 5, 15⟩])]⟩⟩

lemma device_tick_commands_of_read_failure (present : DeviceName → Bool)
    (forced_states : DeviceName → Option Bool)
    (price_timeframes : List (DeviceName × List Timeframe))
    (current_time : PyDateTime) (read_state : DeviceName → Option Bool)
    (d : DeviceName × Nat) (h : read_state d.1 = none) :
    device_tick_commands present forced_states price_timeframes current_time
      read_state d = [] := by
  unfold device_tick_commands
  rw [h]
  split <;> rfl

lemma device_tick_commands_name (present : DeviceName → Bool)
    (forced_states : DeviceName → Option Bool)
    (price_timeframes : List (DeviceName × List Timeframe))
    (current_time : PyDateTime) (read_state : DeviceName → Option Bool)
    (d : DeviceName × Nat) (n : DeviceName) (b : Bool)
    (h : (n, b) ∈ device_tick_commands present forced_states price_timeframes
      current_time read_state d) : n = d.1 := by
  unfold device_tick_commands at h
  split at h
  · split at h
    · simp at h
    · split at h
      · simp at h
        exact h.1
      · split at h
        · simp at h
          exact h.1
        · simp at h
  · simp at h

/-- C7: a device whose observed-state read exhausts all retries (`read_state`
returns `none`) gets no set-state command this tick and its presence in the
snapshot changes nothing: the tick's command list is the same as if it were
absent, so every other device is processed exactly as before; if no other
snapshot entry carries its name, no command for that name is issued at
all. -/
theorem c7_read_failure_skips_device (l1 l2 : List (DeviceName × Nat))
    (name : DeviceName) (ip : Nat) (present : DeviceName → Bool)
    (forced_states : DeviceName → Option Bool)
    (price_timeframes : List (DeviceName × List Timeframe))
    (current_time : PyDateTime) (read_state : DeviceName → Option Bool)
    (hfail : read_state name = none) :
    (manage_devices (l1 ++ (name, ip) :: l2) present forced_states
        price_timeframes current_time read_state =
      manage_devices (l1 ++ l2) present forced_states
        price_timeframes current_time read_state) ∧
    ((∀ d ∈ l1 ++ l2, d.1 ≠ name) → ∀ b : Bool,
      (name, b) ∉ manage_devices (l1 ++ (name, ip) :: l2) present forced_states
        price_timeframes current_time read_state) := by
  constructor
  · unfold manage_devices
    rw [List.flatMap_append, List.flatMap_cons, List.flatMap_append,
      device_tick_commands_of_read_failure _ _ _ _ _ _ hfail]
    simp
  · intro hothers b hb
    unfold manage_devices at hb
    rw [List.mem_flatMap] at hb
    obtain ⟨d, hd, hmem⟩ := hb
    have hn := device_tick_commands_name _ _ _ _ _ _ _ _ hmem
    rcases List.mem_append.mp hd with hd | hd
    · exact hothers d (List.mem_append_left _ hd) hn.symm
    · rcases List.mem_cons.mp hd with heq | hd
      · subst heq
        rw [device_tick_commands_of_read_failure _ _ _ _ _ _ hfail] at hmem
        simp at hmem
      · exact hothers d (List.mem_append_right _ hd) hn.symm

/-- Witness for C7: device 1's read fails while device 0 (off, forced on)
still receives its turn-on command. -/
theorem c7_read_failure_skips_device_witness :
    (fun n : DeviceName => if n = 1 then none else some false) 1 = none ∧
    (manage_devices [(0, 10), (1, 11)] (fun _ => true)
        (fun n => if n = 0 then some true else none) [] ⟨0, none⟩
        (fun n => if n = 1 then none else some false) =
      manage_devices [(0, 10)] (fun _ => true)
        (fun n => if n = 0 then some true else none) [] ⟨0, none⟩
        (fun n => if n = 1 then none else some false)) ∧
    manage_devices [(0, 10), (1, 11)] (fun _ => true)
      (fun n => if n = 0 then some true else none) [] ⟨0, none⟩
      (fun n => if n = 1 then none else some false) = [(0, true)] := by
  refine ⟨rfl, ?_, ?_⟩
  · exact (c7_read_failure_skips_device [(0, 10)] [] 1 11 (fun _ => true)
      (fun n => if n = 0 then some true else none) [] ⟨0, none⟩
      (fun n => if n = 1 then none else some false) rfl).1
  · rfl

lemma retryFrom_succ (o : Nat → Option Bool) (d : ℚ) (a n : Nat) :
    retryFrom o d a (n + 1) =
      match o a with
      | some v => (some v, [])
      | none =>
        if n = 0 then (none, [])
        else ((retryFrom o d (a + 1) n).1, d * 2 ^ a :: (retryFrom o d (a + 1) n).2) := by
  rfl

lemma retryFrom_start3 (o : Nat → Option Bool) (d : ℚ) (h0 : o 0 = none) :
    retryFrom o d 0 3 = ((retryFrom o d 1 2).1, d :: (retryFrom o d 1 2).2) := by
  rw [show (3 : Nat) = 2 + 1 from rfl, retryFrom_succ, h0]
  norm_num

lemma retryFrom_start3_some (o : Nat → Option Bool) (d : ℚ) (w : Bool)
    (h0 : o 0 = some w) : retryFrom o d 0 3 = (some w, []) := by
  rw [show (3 : Nat) = 2 + 1 from rfl, retryFrom_succ, h0]

lemma retryFrom_mid2 (o : Nat → Option Bool) (d : ℚ) (h1 : o 1 = none) :
    retryFrom o d 1 2 = ((retryFrom o d 2 1).1, d * 2 :: (retryFrom o d 2 1).2) := by
  rw [show (2 : Nat) = 1 + 1 from rfl, retryFrom_succ, h1]
  norm_num

lemma retryFrom_mid2_some (o : Nat → Option Bool) (d : ℚ) (w : Bool)
    (h1 : o 1 = some w) : retryFrom o d 1 2 = (some w, []) := by
  rw [show (2 : Nat) = 1 + 1 from rfl, retryFrom_succ, h1]

lemma retryFrom_last1 (o : Nat → Option Bool) (d : ℚ) :
    retryFrom o d 2 1 = (o 2, []) := by
  rw [show (1 : Nat) = 0 + 1 from rfl, retryFrom_succ]
  rcases h2 : o 2 with _ | v2 <;> norm_num

/-- C8: the retried device operation consults at most `max_retries = 3`
attempt outcomes; an operation failing twice then succeeding returns the
success after exactly the two backoff waits `retry_delay` (2 s) and
`2 * retry_delay` (4 s); an operation failing all three attempts returns the
failure after the same two waits — no wait follows the final attempt. -/
theorem c8_retry_backoff (o o' : Nat → Option Bool) (v : Bool) :
    ((∀ k, k < max_retries → o k = o' k) →
      run_with_retries o = run_with_retries o') ∧
    (o 0 = none → o 1 = none → o 2 = some v →
      run_with_retries o = (some v, [2, 4])) ∧
    (o 0 = none → o 1 = none → o 2 = none →
      run_with_retries o = (none, [2, 4])) := by
  refine ⟨?_, ?_, ?_⟩
  · intro h
    have h0 := h 0 (by norm_num [max_retries])
    have h1 := h 1 (by norm_num [max_retries])
    have h2 := h 2 (by norm_num [max_retries])
    unfold run_with_retries max_retries
    rcases e0 : o' 0 with _ | w0
    · rcases e1 : o' 1 with _ | w1
      · rw [retryFrom_start3 o _ (h0.trans e0), retryFrom_start3 o' _ e0,
          retryFrom_mid2 o _ (h1.trans e1), retryFrom_mid2 o' _ e1,
          retryFrom_last1, retryFrom_last1, h2]
      · rw [retryFrom_start3 o _ (h0.trans e0), retryFrom_start3 o' _ e0,
          retryFrom_mid2_some o _ w1 (h1.trans e1), retryFrom_mid2_some o' _ w1 e1]
    · rw [retryFrom_start3_some o _ w0 (h0.trans e0),
        retryFrom_start3_some o' _ w0 e0]
  · intro h0 h1 h2
    unfold run_with_retries max_retries
    rw [retryFrom_start3 o _ h0, retryFrom_mid2 o _ h1, retryFrom_last1, h2]
    norm_num [retry_delay]
  · intro h0 h1 h2
    unfold run_with_retries max_retries
    rw [retryFrom_start3 o _ h0, retryFrom_mid2 o _ h1, retryFrom_last1, h2]
    norm_num [retry_delay]

/-- Witness for C8: an operation failing on attempts 0 and 1 and succeeding
on attempt 2. -/
theorem c8_retry_backoff_witness :
    (fun k : Nat => if k = 2 then some true else none) 0 = none ∧
    (fun k : Nat => if k = 2 then some true else none) 1 = none ∧
    (fun k : Nat => if k = 2 then some true else none) 2 = some true ∧
    run_with_retries (fun k : Nat => if k = 2 then some true else none) =
      (some true, [2, 4]) :=
  ⟨rfl, rfl, rfl,
    (c8_retry_backoff (fun k : Nat => if k = 2 then some true else none)
      (fun k : Nat => if k = 2 then some true else none) true).2.1 rfl rfl rfl⟩

/-- C9 is violated by the code: `update_prices` rebinds `price_timeframes`
to a fresh empty dict and then fills it device by device, so during a
refresh over two devices a concurrent reader (the waitress web thread) can
observe a map that has fresh windows for device 0 and no entry for device 1,
although the completed update gives device 1 the same windows; a reader at
that moment computes desired-state false for device 1. -/
theorem c9_no_atomic_snapshot_swap :
    ∃ s ∈ update_prices_visible_maps [⟨0, 5⟩] [0, 1]
        (fun _ => some ⟨.fixed, 8⟩) [(1, [⟨0, 900, 5, 15⟩])],
      s.lookup 0 = some [⟨0, 900, 5, 15⟩] ∧ s.lookup 1 = none ∧
      should_be_on_for_device s 1 ⟨0, none⟩ = false ∧
      should_be_on_for_device s 0 ⟨0, none⟩ = true ∧
      (update_prices [⟨0, 5⟩] [0, 1] (fun _ => some ⟨.fixed, 8⟩)
          ⟨none, []⟩).price_timeframes.lookup 1 = some [⟨0, 900, 5, 15⟩] := by
  refine ⟨[(0, [⟨0, 900, 5, 15⟩])], ?_, rfl, rfl, rfl, rfl, ?_⟩
  · norm_num [update_prices_visible_maps, List.scanl, efficient_timeframes,
      goTF, flushRun, calculate_threshold_price, median, List.insertionSort,
      List.orderedInsert]
  · norm_num [update_prices, efficient_timeframes, goTF, flushRun,
      calculate_threshold_price, median, List.insertionSort, List.orderedInsert,
      List.lookup]
    rfl

/-- C10: `should_be_on_for_device` discards any timezone offset and compares
the bare wall-clock fields against the naive window bounds: an aware
datetime behaves exactly like the naive datetime with the same fields, and
two aware datetimes denoting the same UTC instant in different timezones can
yield different desired states. -/
theorem c10_timezone_discarded :
    (∀ (m : List (DeviceName × List Timeframe)) (name : DeviceName)
      (wall off : Int),
      should_be_on_for_device m name ⟨wall, some off⟩ =
        should_be_on_for_device m name ⟨wall, none⟩) ∧
    (∃ t1 t2 : PyDateTime,
      utcInstant t1 = utcInstant t2 ∧ (utcInstant t1).isSome = true ∧
      should_be_on_for_device [(0, [⟨0, 900, 5, 15⟩])] 0 t1 = true ∧
      should_be_on_for_device [(0, [⟨0, 900, 5, 15⟩])] 0 t2 = false) := by
  constructor
  · intro m name wall off
    rfl
  · exact ⟨⟨0, some 0⟩, ⟨3600, some 60⟩, rfl, rfl, rfl, rfl⟩
